import Mathlib

/-!
Verification development for the `toser` repository.

The core under scrutiny is `src/analysis.py`: the multi-tier JSON
parse/repair/extract pipeline (`parse_and_clean_json`, `clean_json_response`,
`extract_structured_data`), the schema normalizer (`post_process_analysis`,
`safe_float`) and the response-parsing stage of the entry point `analyze_tos`.

The embedding below models Python values as the inductive `PyVal` (strings,
ints, floats, booleans, None, lists, dicts), Python floats as the inductive
`PyFloat` (a rational, or one of the non-finite values), raised exceptions as
`Except PyErr`, and text as `List Char`.  Python's `json.loads` is embedded as
a fuelled recursive-descent parser that mirrors CPython's scanner, including
the error categories the repair chain inspects.  The regular-expression
substitutions of the repair chain and the pattern searches of the extractor
are embedded as explicit character scans matching the semantics of each
concrete pattern in the source.
-/

set_option maxRecDepth 10000

namespace Toser

/-- Exception classes raised by the embedded fragments of `analysis.py`. -/
inductive PyErr where
  | valueError
  | typeError
  | attributeError
deriving DecidableEq, Repr

/-- A Python float: a finite value (modelled as a rational) or one of the
non-finite values produced by `float("inf")`, `float("-inf")`, `float("nan")`.
Binary rounding of CPython doubles is not modelled; the claims under scrutiny
only compare and clamp parsed decimal values. -/
inductive PyFloat where
  | fin (q : ℚ)
  | pinf
  | ninf
  | nan
deriving DecidableEq, Repr

/-- Python `<` on floats: `nan` compares false against everything. -/
def pyFloatLt : PyFloat → PyFloat → Bool
  | .fin a, .fin b => a < b
  | .fin _, .pinf => true
  | .ninf, .fin _ => true
  | .ninf, .pinf => true
  | _, _ => false

/-- A Python value, as passed around by `analysis.py`. -/
inductive PyVal where
  | str (s : String)
  | int (n : ℤ)
  | float (f : PyFloat)
  | bool (b : Bool)
  | pynone
  | list (xs : List PyVal)
  | dict (kvs : List (String × PyVal))

/-- A Python dict: an association list with unique keys in insertion order
(uniqueness is maintained by `dset`, mirroring dict assignment). -/
abbrev PyDict := List (String × PyVal)

/-- Dict lookup, `d[k]` / the found case of `d.get(k)`. -/
def dget (d : PyDict) (k : String) : Option PyVal :=
  match d with
  | [] => Option.none
  | (k0, v) :: rest => if k0 = k then some v else dget rest k

/-- Python `d.get(k, default)`. -/
def dgetD (d : PyDict) (k : String) (dflt : PyVal) : PyVal :=
  (dget d k).getD dflt

/-- Python dict assignment `d[k] = v`: overwrite in place, else append. -/
def dset (d : PyDict) (k : String) (v : PyVal) : PyDict :=
  match d with
  | [] => [(k, v)]
  | (k0, v0) :: rest => if k0 = k then (k0, v) :: rest else (k0, v0) :: dset rest k v

/-- Whether a value is a Python dict (`isinstance(v, dict)`). -/
def PyVal.isDict : PyVal → Bool
  | .dict _ => true
  | _ => false

/-- Python `min(a, b)` = `b if b < a else a`, over numeric values. -/
def pyMinV (a b : PyVal) (lt : PyVal → PyVal → Bool) : PyVal :=
  if lt b a then b else a

/-- Python `max(a, b)` = `b if a < b else a`, over numeric values. -/
def pyMaxV (a b : PyVal) (lt : PyVal → PyVal → Bool) : PyVal :=
  if lt a b then b else a

/-- Numeric view of a value: ints and finite floats. -/
def valToQ : PyVal → Option ℚ
  | .int n => some (n : ℚ)
  | .float (.fin q) => some q
  | _ => Option.none

/-- Python `<` over the ints and floats compared by `post_process_analysis`
(`max(0, min(10, float(...)))`): numeric comparison, `nan` always false. -/
def pyLtV : PyVal → PyVal → Bool
  | .int a, .int b => a < b
  | .int a, .float f => pyFloatLt (.fin (a : ℚ)) f
  | .float f, .int b => pyFloatLt f (.fin (b : ℚ))
  | .float f, .float g => pyFloatLt f g
  | _, _ => false

/-- ASCII decimal digit. -/
def isPyDigit (c : Char) : Bool := '0' ≤ c ∧ c ≤ '9'

/-- Python `str.strip()` whitespace (the ASCII part). -/
def isPyStripWs (c : Char) : Bool :=
  c = ' ' ∨ c = '\t' ∨ c = '\n' ∨ c = '\r' ∨ c = '\x0b' ∨ c = '\x0c'

/-- Python `str.strip()`: drop whitespace from both ends. -/
def pyStrip (l : List Char) : List Char :=
  ((l.dropWhile isPyStripWs).reverse.dropWhile isPyStripWs).reverse

/-- Remove the underscores Python's number syntax allows between digits,
rejecting any underscore not surrounded by digits.  `prev` is the previous
character of the original text (a sentinel for the start). -/
def remUnd (prev : Char) : List Char → Option (List Char)
  | [] => some []
  | c :: rest =>
    if c = '_' then
      match rest with
      | c2 :: _ => if isPyDigit prev ∧ isPyDigit c2 then remUnd c rest else Option.none
      | [] => Option.none
    else (c :: ·) <$> remUnd c rest

/-- Digits to a natural number. -/
def digitsVal (ds : List Char) : ℕ :=
  ds.foldl (fun acc c => acc * 10 + (c.toNat - 48)) 0

/-- Parse the decimal part of a Python float literal
(`digits [. digits] [(e|E) [sign] digits]`, at least one mantissa digit),
yielding its exact rational value. -/
def parsePyDec (l : List Char) : Option ℚ :=
  let ip := l.takeWhile isPyDigit
  let r1 := l.drop ip.length
  let (fp, r2) :=
    match r1 with
    | '.' :: rest => (rest.takeWhile isPyDigit, rest.drop (rest.takeWhile isPyDigit).length)
    | _ => ([], r1)
  if ip.length + fp.length = 0 then Option.none
  else
    let mant : ℚ := (digitsVal ip : ℚ) + (digitsVal fp : ℚ) / ((10 : ℚ) ^ fp.length)
    match r2 with
    | [] => some mant
    | e :: rest =>
      if e = 'e' ∨ e = 'E' then
        let (esign, r3) :=
          match rest with
          | '+' :: r => ((1 : ℤ), r)
          | '-' :: r => ((-1 : ℤ), r)
          | _ => ((1 : ℤ), rest)
        let ed := r3.takeWhile isPyDigit
        if ed.length = 0 ∨ (r3.drop ed.length).length ≠ 0 then Option.none
        else some (mant * (10 : ℚ) ^ (esign * (digitsVal ed : ℤ)))
      else Option.none

/-- Python `float(string)`: strip whitespace, optional sign, then either one of
the words `inf`/`infinity`/`nan` (case-insensitive) or a decimal literal
(underscores allowed between digits). -/
def pyFloatOfString (s : String) : Option PyFloat :=
  let l := pyStrip s.toList
  let (neg, core) :=
    match l with
    | '+' :: r => (false, r)
    | '-' :: r => (true, r)
    | _ => (false, l)
  let low := core.map Char.toLower
  if low = [ 'i', 'n', 'f' ] ∨ low = [ 'i', 'n', 'f', 'i', 'n', 'i', 't', 'y' ] then
    some (if neg then .ninf else .pinf)
  else if low = [ 'n', 'a', 'n' ] then some .nan
  else
    match remUnd 'x' core with
    | Option.none => Option.none
    | some core2 =>
      match parsePyDec core2 with
      | some q => some (.fin (if neg then -q else q))
      | Option.none => Option.none

/-- Python `float(value)`: floats and ints pass through, booleans are 0/1,
strings are parsed (`ValueError` on failure), anything else is a `TypeError`. -/
def pyFloatOf : PyVal → Except PyErr PyFloat
  | .float f => .ok f
  | .int n => .ok (.fin (n : ℚ))
  | .bool b => .ok (.fin (if b then 1 else 0))
  | .str s =>
    match pyFloatOfString s with
    | some f => .ok f
    | Option.none => .error .valueError
  | _ => .error .typeError

/-- `safe_float` from `parse_and_clean_json` (src/analysis.py lines 282-286):
`float(value)`, catching `ValueError`/`TypeError` into the default `0.0`
(every call site uses the default). -/
def safe_float (v : PyVal) : PyFloat :=
  match pyFloatOf v with
  | .ok f => f
  | .error _ => .fin 0

/-- Python `list(value)`: lists pass through; strings become their characters;
dicts their keys; non-iterables raise `TypeError`. -/
def pyListC : PyVal → Except PyErr (List PyVal)
  | .list xs => .ok xs
  | .str s => .ok (s.toList.map (fun c => .str (String.mk [ c ])))
  | .dict d => .ok (d.map (fun kv => .str kv.1))
  | _ => .error .typeError

/-- Integer part and fractional digits of `str(float)`; an approximation of
CPython float repr (floats are modelled as rationals), unexercised by the
theorems below. -/
def pyFloatRepr (f : PyFloat) : String :=
  match f with
  | .pinf => "inf"
  | .ninf => "-inf"
  | .nan => "nan"
  | .fin q =>
    if q.den = 1 then toString q.num ++ ".0"
    else toString (q : ℚ)

/-- Python `str(value)` restricted to the scalar shapes the pipeline feeds it;
container repr is abbreviated (unexercised by the theorems below). -/
def pyStr : PyVal → String
  | .str s => s
  | .int n => toString n
  | .float f => pyFloatRepr f
  | .bool b => if b then "True" else "False"
  | .pynone => "None"
  | .list _ => "[...]"
  | .dict _ => "\x7b...\x7d"

/-! ### `json.loads` (CPython decoder), over `List Char`

The embedding mirrors CPython's `json.decoder`: the same whitespace set, the
same grammar (including the `NaN`/`Infinity`/`-Infinity` constants) and, most
importantly for the repair chain, the same error category at each failure
point — `clean_json_response` keys its truncation repair on whether the error
message contains `Expecting ',' delimiter`. -/

/-- The error categories of CPython's `json.JSONDecodeError` messages. -/
inductive JErr where
  | expValue
  | expPropName
  | expColon
  | expComma
  | unterminated
  | invCtrl
  | invEscape
  | extraData
deriving DecidableEq, Repr

/-- JSON whitespace (CPython `json.decoder.WHITESPACE_STR`). -/
def isJsonWs (c : Char) : Bool := c = ' ' ∨ c = '\t' ∨ c = '\n' ∨ c = '\r'

/-- Skip JSON whitespace. -/
def jSkipWs (l : List Char) : List Char := l.dropWhile isJsonWs

/-- The JSON short string escapes (CPython `BACKSLASH`). -/
def jEsc (c : Char) : Option Char :=
  if c = '"' then some '"'
  else if c = '\\' then some '\\'
  else if c = '/' then some '/'
  else if c = 'b' then some '\x08'
  else if c = 'f' then some '\x0c'
  else if c = 'n' then some '\n'
  else if c = 'r' then some '\r'
  else if c = 't' then some '\t'
  else Option.none

/-- Hex digit value. -/
def hexDigit (c : Char) : Option ℕ :=
  if isPyDigit c then some (c.toNat - 48)
  else if 'a' ≤ c ∧ c ≤ 'f' then some (c.toNat - 87)
  else if 'A' ≤ c ∧ c ≤ 'F' then some (c.toNat - 55)
  else Option.none

/-- Four hex digits (a `\uXXXX` escape). -/
def hex4 : List Char → Option (ℕ × List Char)
  | a :: b :: c :: d :: rest =>
    match hexDigit a, hexDigit b, hexDigit c, hexDigit d with
    | some x, some y, some z, some w => some (((x * 16 + y) * 16 + z) * 16 + w, rest)
    | _, _, _, _ => Option.none
  | _ => Option.none

/-- CPython `py_scanstring`, after the opening quote: contents up to the
closing quote, decoding escapes, rejecting raw control characters (strict
mode).  Fuelled; the fuel is generous at every call site. -/
def jScanStr (fuel : ℕ) (acc : List Char) (l : List Char) :
    Except JErr (String × List Char) :=
  match fuel, l with
  | 0, _ => .error .unterminated
  | _, [] => .error .unterminated
  | f + 1, c :: rest =>
    if c = '"' then .ok (String.mk acc.reverse, rest)
    else if c = '\\' then
      match rest with
      | [] => .error .unterminated
      | e :: rest2 =>
        if e = 'u' then
          match hex4 rest2 with
          | some (n, rest3) => jScanStr f (Char.ofNat n :: acc) rest3
          | Option.none => .error .invEscape
        else
          match jEsc e with
          | some c2 => jScanStr f (c2 :: acc) rest2
          | Option.none => .error .invEscape
    else if c.toNat < 32 then .error .invCtrl
    else jScanStr f (c :: acc) rest

/-- CPython `NUMBER_RE`: `-?(0|[1-9]\d*)(\.\d+)?([eE][-+]?\d+)?`, maximal
munch; an integer literal yields an int, otherwise a float. -/
def jParseNum (l : List Char) : Option (PyVal × List Char) :=
  let (neg, l1) :=
    match l with
    | '-' :: r => (true, r)
    | _ => (false, l)
  let ipRes : Option (List Char × List Char) :=
    match l1 with
    | '0' :: r => some ([ '0' ], r)
    | c :: _ =>
      if isPyDigit c then
        some (l1.takeWhile isPyDigit, l1.drop (l1.takeWhile isPyDigit).length)
      else Option.none
    | [] => Option.none
  match ipRes with
  | Option.none => Option.none
  | some (ip, r2) =>
    let (fp, r3) :=
      match r2 with
      | '.' :: rest =>
        let ds := rest.takeWhile isPyDigit
        if ds.length = 0 then ([], r2) else (ds, rest.drop ds.length)
      | _ => ([], r2)
    let (ep, r4) :=
      match r3 with
      | e :: rest =>
        if e = 'e' ∨ e = 'E' then
          let (sgn, r) :=
            match rest with
            | '+' :: rr => ((1 : ℤ), rr)
            | '-' :: rr => ((-1 : ℤ), rr)
            | _ => ((1 : ℤ), rest)
          let ds := r.takeWhile isPyDigit
          if ds.length = 0 then (Option.none, r3)
          else (some (sgn * (digitsVal ds : ℤ)), r.drop ds.length)
        else (Option.none, r3)
      | [] => (Option.none, r3)
    if fp.length = 0 ∧ ep.isNone then
      let n : ℤ := digitsVal ip
      some (.int (if neg then -n else n), r2)
    else
      let mant : ℚ := (digitsVal ip : ℚ) + (digitsVal fp : ℚ) / ((10 : ℚ) ^ fp.length)
      let q := mant * (10 : ℚ) ^ (ep.getD 0)
      some (.float (.fin (if neg then -q else q)), r4)

mutual

/-- CPython `_scan_once`: dispatch on the first character. -/
def jScanValue (fuel : ℕ) (l : List Char) : Except JErr (PyVal × List Char) :=
  match fuel with
  | 0 => .error .unterminated
  | f + 1 =>
    match l with
    | [] => .error .expValue
    | c :: rest =>
      if c = '"' then
        match jScanStr (f + 1) [] rest with
        | .ok (s, r) => .ok (.str s, r)
        | .error e => .error e
      else if c = '\x7b' then
        match jSkipWs rest with
        | '\x7d' :: r => .ok (.dict [], r)
        | '"' :: r => jScanObj f r []
        | _ => .error .expPropName
      else if c = '[' then
        match jSkipWs rest with
        | ']' :: r => .ok (.list [], r)
        | l1 => jScanArr f l1 []
      else if l.take 4 = [ 'n', 'u', 'l', 'l' ] then .ok (.pynone, l.drop 4)
      else if l.take 4 = [ 't', 'r', 'u', 'e' ] then .ok (.bool true, l.drop 4)
      else if l.take 5 = [ 'f', 'a', 'l', 's', 'e' ] then .ok (.bool false, l.drop 5)
      else
        match jParseNum l with
        | some (v, r) => .ok (v, r)
        | Option.none =>
          if l.take 3 = [ 'N', 'a', 'N' ] then .ok (.float .nan, l.drop 3)
          else if l.take 8 = [ 'I', 'n', 'f', 'i', 'n', 'i', 't', 'y' ] then
            .ok (.float .pinf, l.drop 8)
          else if l.take 9 = [ '-', 'I', 'n', 'f', 'i', 'n', 'i', 't', 'y' ] then
            .ok (.float .ninf, l.drop 9)
          else .error .expValue

/-- CPython `JSONObject` after the opening quote of a key; duplicate keys
resolve last-wins, as in `dict(pairs)`. -/
def jScanObj (fuel : ℕ) (l : List Char) (pairs : PyDict) :
    Except JErr (PyVal × List Char) :=
  match fuel with
  | 0 => .error .unterminated
  | f + 1 =>
    match jScanStr (f + 1) [] l with
    | .error e => .error e
    | .ok (key, r1) =>
      match jSkipWs r1 with
      | ':' :: r3 =>
        match jScanValue f (jSkipWs r3) with
        | .error e => .error e
        | .ok (v, r5) =>
          let pairs2 := dset pairs key v
          match jSkipWs r5 with
          | '\x7d' :: r7 => .ok (.dict pairs2, r7)
          | ',' :: r7 =>
            match jSkipWs r7 with
            | '"' :: r9 => jScanObj f r9 pairs2
            | _ => .error .expPropName
          | _ => .error .expComma
      | _ => .error .expColon

/-- CPython `JSONArray` at the position of the first element
(whitespace already skipped, the empty-array case already handled). -/
def jScanArr (fuel : ℕ) (l : List Char) (vals : List PyVal) :
    Except JErr (PyVal × List Char) :=
  match fuel with
  | 0 => .error .unterminated
  | f + 1 =>
    match jScanValue f l with
    | .error e => .error e
    | .ok (v, r1) =>
      match jSkipWs r1 with
      | ']' :: r3 => .ok (.list (vals ++ [ v ]), r3)
      | ',' :: r3 => jScanArr f (jSkipWs r3) (vals ++ [ v ])
      | _ => .error .expComma

end

/-- `json.loads`: skip leading whitespace, scan one value, demand only
whitespace behind it.  The fuel is a generous bound on the scanner's total
call count for the given text, so exhaustion is unreachable. -/
def json_loads (t : List Char) : Except JErr PyVal :=
  match jScanValue (2 * t.length + 8) (jSkipWs t) with
  | .error e => .error e
  | .ok (v, rest) => if jSkipWs rest = [] then .ok v else .error .extraData

/-! ### `json.dumps` (default options), needed by the nested-string repair -/

/-- Escape one character as CPython `json.dumps` does with `ensure_ascii`. -/
def jEscChar (c : Char) : List Char :=
  if c = '"' then [ '\\', '"' ]
  else if c = '\\' then [ '\\', '\\' ]
  else if c = '\n' then [ '\\', 'n' ]
  else if c = '\r' then [ '\\', 'r' ]
  else if c = '\t' then [ '\\', 't' ]
  else if c = '\x08' then [ '\\', 'b' ]
  else if c = '\x0c' then [ '\\', 'f' ]
  else if c.toNat < 32 ∨ c.toNat > 126 then
    let h := Nat.toDigits 16 c.toNat
    '\\' :: 'u' :: (List.replicate (4 - h.length) '0' ++ h)
  else [ c ]

/-- Render one dumped scalar; containers are handled by `jDump` below. -/
def jDumpStr (s : String) : List Char :=
  '"' :: s.toList.flatMap jEscChar ++ [ '"' ]

/-- CPython `json.dumps` with default separators, fuelled on structure depth
(the fuel at every call site exceeds the depth of any parsed value). -/
def jDump (fuel : ℕ) (v : PyVal) : List Char :=
  match fuel with
  | 0 => []
  | f + 1 =>
    match v with
    | .str s => jDumpStr s
    | .int n => (toString n).toList
    | .float (.fin q) => (pyFloatRepr (.fin q)).toList
    | .float .pinf => [ 'I', 'n', 'f', 'i', 'n', 'i', 't', 'y' ]
    | .float .ninf => [ '-', 'I', 'n', 'f', 'i', 'n', 'i', 't', 'y' ]
    | .float .nan => [ 'N', 'a', 'N' ]
    | .bool true => [ 't', 'r', 'u', 'e' ]
    | .bool false => [ 'f', 'a', 'l', 's', 'e' ]
    | .pynone => [ 'n', 'u', 'l', 'l' ]
    | .list xs =>
      '[' :: List.intercalate [ ',', ' ' ] (xs.map (jDump f)) ++ [ ']' ]
    | .dict d =>
      '\x7b' ::
        List.intercalate [ ',', ' ' ]
          (d.map (fun kv => jDumpStr kv.1 ++ [ ':', ' ' ] ++ jDump f kv.2)) ++ [ '\x7d' ]

/-! ### The repair filter chain `clean_json_response` (src/analysis.py 360-415)

Each `re.sub` of the source becomes an explicit scan with the semantics of its
concrete pattern: matches are found leftmost, non-overlapping, with the
lookbehind/lookahead context taken from the original text (replacements never
re-enter the scanned region, so carrying the original previous character is
faithful). -/

/-- Python regex `\w` (the ASCII part; the claim inputs are ASCII). -/
def isWordChar (c : Char) : Bool :=
  isPyDigit c ∨ ('a' ≤ c ∧ c ≤ 'z') ∨ ('A' ≤ c ∧ c ≤ 'Z') ∨ c = '_'

/-- `\w` on an optional character (boundary counts as no word character). -/
def isWordOpt : Option Char → Bool
  | some c => isWordChar c
  | Option.none => false

/-- Python regex `\s` (the ASCII part). -/
def isReWs (c : Char) : Bool := isPyStripWs c

/-- Line 374: `re.sub(r'(?<!\\)\\(?!\\)"', '\\"', text)` — the replacement
text equals the matched text, so the substitution rewrites `\"` to itself;
the scan is still performed as the source does. -/
def subEscQuote : Option Char → List Char → List Char
  | _, [] => []
  | prev, '\\' :: '"' :: rest2 =>
    if prev = some '\\' then '\\' :: subEscQuote (some '\\') ('"' :: rest2)
    else '\\' :: '"' :: subEscQuote (some '"') rest2
  | prev, c :: rest =>
    let _ := prev
    c :: subEscQuote (some c) rest

/-- Line 377: `re.sub(r"(?<!\w)'(?!\w)", '"', text)` — replace a single quote
flanked by non-word characters (or text boundaries) with a double quote. -/
def subSingleQuote (prev : Option Char) : List Char → List Char
  | [] => []
  | c :: rest =>
    if c = '\'' ∧ isWordOpt prev = false ∧ isWordOpt rest.head? = false then
      '"' :: subSingleQuote (some '\'') rest
    else c :: subSingleQuote (some c) rest

/-- Line 380: `re.sub(r'(?<!\\)\\n', r'\\n', text)` — the replacement template
`\\n` denotes the two characters `\` `n`, equal to the matched text; the
substitution rewrites `\n` (backslash, letter n) to itself. -/
def subBackslashN : Option Char → List Char → List Char
  | _, [] => []
  | prev, '\\' :: 'n' :: rest2 =>
    if prev = some '\\' then '\\' :: subBackslashN (some '\\') ('n' :: rest2)
    else '\\' :: 'n' :: subBackslashN (some 'n') rest2
  | prev, c :: rest =>
    let _ := prev
    c :: subBackslashN (some c) rest

/-- Line 383: drop every character of Unicode category C
(`unicodedata.category(ch)[0] == 'C'`).  Cc and the common Cf ranges are
modelled; unassigned code points (Cn) are not. -/
def isUnicodeCatC (c : Char) : Bool :=
  c.toNat < 32 ∨ (127 ≤ c.toNat ∧ c.toNat ≤ 159) ∨ c.toNat = 173 ∨
    (8203 ≤ c.toNat ∧ c.toNat ≤ 8207) ∨ (8234 ≤ c.toNat ∧ c.toNat ≤ 8238) ∨
    (8288 ≤ c.toNat ∧ c.toNat ≤ 8303) ∨ c.toNat = 65279

/-- Line 386: `re.sub(r'([{,]\s*)([a-zA-Z_][a-zA-Z0-9_]*)\s*:', r'\1"\2":', …)`
match attempt after a `{` or `,`: whitespace, an identifier, whitespace, a
colon; on success the identifier is quoted and the whitespace before the colon
dropped (it is outside both groups). -/
def keyMatch (l : List Char) : Option (List Char × List Char × List Char) :=
  let ws := l.takeWhile isReWs
  let r1 := l.drop ws.length
  match r1 with
  | c :: _ =>
    if isWordChar c ∧ ¬ isPyDigit c then
      let id := r1.takeWhile isWordChar
      let r2 := (r1.drop id.length).dropWhile isReWs
      match r2 with
      | ':' :: r3 => some (ws, id, r3)
      | _ => Option.none
    else Option.none
  | [] => Option.none

/-- The key-quoting scan (line 386), fuelled: on a match the scan resumes
after the colon, as `re.sub` does. -/
def subQuoteKeys (fuel : ℕ) (l : List Char) : List Char :=
  match fuel with
  | 0 => l
  | f + 1 =>
    match l with
    | [] => []
    | c :: rest =>
      if c = '\x7b' ∨ c = ',' then
        match keyMatch rest with
        | some (ws, id, r3) =>
          c :: (ws ++ '"' :: id ++ '"' :: ':' :: subQuoteKeys f r3)
        | Option.none => c :: subQuoteKeys f rest
      else c :: subQuoteKeys f rest

/-- Line 389: `re.sub(r',\s*([\]}])', r'\1', text)` — drop a comma (and the
whitespace after it) that directly precedes a closing bracket or brace. -/
def subTrailComma (fuel : ℕ) (l : List Char) : List Char :=
  match fuel with
  | 0 => l
  | f + 1 =>
    match l with
    | [] => []
    | c :: rest =>
      if c = ',' then
        match rest.dropWhile isReWs with
        | b :: r2 =>
          if b = ']' ∨ b = '\x7d' then b :: subTrailComma f r2
          else c :: subTrailComma f rest
        | [] => c :: subTrailComma f rest
      else c :: subTrailComma f rest

/-- Lines 392-398: `re.sub(r'"(\{[^}]*\})"', replace_nested_json, text)` —
a quoted brace block with no inner closing brace; if the block parses as JSON
it replaces the whole match (quotes included) with its re-serialization,
otherwise the match is left unchanged; either way the scan resumes after
the match. -/
def subNested (fuel : ℕ) (l : List Char) : List Char :=
  match fuel with
  | 0 => l
  | f + 1 =>
    match l with
    | [] => []
    | c :: rest =>
      if c = '"' then
        match rest with
        | '\x7b' :: r2 =>
          let inner := r2.takeWhile (fun x => x ≠ '\x7d')
          match r2.drop inner.length with
          | '\x7d' :: '"' :: r4 =>
            let grp := '\x7b' :: inner ++ [ '\x7d' ]
            (match json_loads grp with
             | .ok v => jDump (grp.length + 1) v
             | .error _ => '"' :: grp ++ [ '"' ]) ++ subNested f r4
          | _ => c :: subNested f rest
        | _ => c :: subNested f rest
      else c :: subNested f rest

/-- Python `str.rfind(ch)` as an index, `-1` when absent. -/
def pyRfind (ch : Char) (l : List Char) : ℤ :=
  match l with
  | [] => -1
  | c :: rest =>
    let r := pyRfind ch rest
    if r ≥ 0 then r + 1 else if c = ch then 0 else -1

/-- Python `str.count(ch)`. -/
def pyCount (ch : Char) (l : List Char) : ℕ :=
  (l.filter (fun c => c = ch)).length

/-- Append the missing closers to the cut text, exactly as
`'}' * open_brackets + ']' * open_squares` does — all braces first, then all
brackets, regardless of nesting order (a negative count contributes
nothing, as Python string repetition does). -/
def appendClosers (cut : List Char) : List Char :=
  cut ++ List.replicate ((pyCount '\x7b' cut : ℤ) - (pyCount '\x7d' cut : ℤ)).toNat '\x7d'
    ++ List.replicate ((pyCount '[' cut : ℤ) - (pyCount ']' cut : ℤ)).toNat ']'

/-- Lines 400-413: if the text still fails to parse with an
`Expecting ',' delimiter` error, cut at the last `}`/`]` and append the
unbalanced closers. -/
def fixTruncated (l : List Char) : List Char :=
  match json_loads l with
  | .ok _ => l
  | .error e =>
    if e = .expComma then
      if max (pyRfind '\x7d' l) (pyRfind ']' l) ≠ -1 then
        appendClosers (l.take ((max (pyRfind '\x7d' l) (pyRfind ']' l)).toNat + 1))
      else l
    else l

/-- Line 368: wrap in an opening brace when `startswith('{')` fails. -/
def wrapStart (s : List Char) : List Char :=
  if s.head? = some '\x7b' then s else '\x7b' :: s

/-- Line 370: append a closing brace when `endswith('}')` fails. -/
def wrapEnd (s : List Char) : List Char :=
  if s.getLast? = some '\x7d' then s else s ++ [ '\x7d' ]

/-- Line 383's control filter. -/
def removeCtrl (l : List Char) : List Char :=
  l.filter (fun c => ¬ isUnicodeCatC c)

/-- The key-quoting scan with its fuel (one step per character suffices). -/
def subQuoteKeysF (l : List Char) : List Char := subQuoteKeys (l.length + 1) l

/-- The trailing-comma scan with its fuel. -/
def subTrailCommaF (l : List Char) : List Char := subTrailComma (l.length + 1) l

/-- The nested-string scan with its fuel. -/
def subNestedF (l : List Char) : List Char := subNested (l.length + 1) l

/-- `clean_json_response` (src/analysis.py 360-415): strip, wrap in braces,
the six substitutions, and the truncation repair, in source order. -/
def clean_json_response (t : List Char) : List Char :=
  fixTruncated (subNestedF (subTrailCommaF (subQuoteKeysF (removeCtrl
    (subBackslashN Option.none (subSingleQuote Option.none (subEscQuote Option.none
      (wrapEnd (wrapStart (pyStrip t))))))))))

/-! ### `extract_structured_data` (src/analysis.py 432-468)

Each `re.search` becomes a leftmost scan with a deterministic matcher for its
concrete pattern.  Note that the Overall Assessment pattern on line 459 is a
plain raw string, not an f-string, so its `{{`/`}}` are literal double braces:
the block must be written `"Overall Assessment": {{...}}` to match. -/

/-- The seven schema category names (src/analysis.py 444-446). -/
def categoryNames : List String :=
  [ "Clarity and Readability", "Privacy and Data Security", "Data Collection and Usage",
    "User Rights and Control", "Liability and Disclaimers",
    "Termination and Account Suspension", "Changes to Terms" ]

/-- Match a literal character sequence, returning the remainder. -/
def matchLit : List Char → List Char → Option (List Char)
  | [], l => some l
  | _ :: _, [] => Option.none
  | p :: ps, c :: rest => if c = p then matchLit ps rest else Option.none

/-- Match `"name":\s*"([^"]*)"` at the current position. -/
def matchQuotedField (name : String) (l : List Char) : Option String :=
  match matchLit ('"' :: name.toList ++ [ '"', ':' ]) l with
  | Option.none => Option.none
  | some r1 =>
    match r1.dropWhile isReWs with
    | '"' :: r2 =>
      let cap := r2.takeWhile (fun c => c ≠ '"')
      match r2.drop cap.length with
      | '"' :: _ => some (String.mk cap)
      | _ => Option.none
    | _ => Option.none

/-- Match `"name":\s*\{([^}]*)\}` at the current position (the expanded
f-string pattern of line 448). -/
def matchBraceField (name : String) (l : List Char) : Option (List Char) :=
  match matchLit ('"' :: name.toList ++ [ '"', ':' ]) l with
  | Option.none => Option.none
  | some r1 =>
    match r1.dropWhile isReWs with
    | '\x7b' :: r2 =>
      let cap := r2.takeWhile (fun c => c ≠ '\x7d')
      match r2.drop cap.length with
      | '\x7d' :: _ => some cap
      | _ => Option.none
    | _ => Option.none

/-- The opening part of the line-459 pattern, `"Overall Assessment":\s*{{`
(literal double braces): the remainder after it when it matches here. -/
def matchOAOpenRem (l : List Char) : Option (List Char) :=
  match matchLit ('"' :: (String.toList "Overall Assessment") ++ [ '"', ':' ]) l with
  | Option.none => Option.none
  | some r1 =>
    match r1.dropWhile isReWs with
    | '\x7b' :: '\x7b' :: r2 => some r2
    | _ => Option.none

/-- Match `"Overall Assessment":\s*{{([^}]*)}}` at the current position
(line 459; literal double braces around the capture). -/
def matchOABlock (l : List Char) : Option (List Char) :=
  match matchOAOpenRem l with
  | Option.none => Option.none
  | some r2 =>
    let cap := r2.takeWhile (fun c => c ≠ '\x7d')
    match r2.drop cap.length with
    | '\x7d' :: '\x7d' :: _ => some cap
    | _ => Option.none

/-- Whether the opening part of the line-459 pattern matches here. -/
def matchOAOpen (l : List Char) : Bool :=
  (matchOAOpenRem l).isSome

/-- Match `"key":\s*"?([^",}]*)"?` at the current position (line 464; the
optional-quote parts can always succeed once the literal part matched). -/
def matchLooseField (name : String) (l : List Char) : Option String :=
  match matchLit ('"' :: name.toList ++ [ '"', ':' ]) l with
  | Option.none => Option.none
  | some r1 =>
    let r2 :=
      match r1.dropWhile isReWs with
      | '"' :: r => r
      | r => r
    some (String.mk (r2.takeWhile (fun c => c ≠ '"' ∧ c ≠ ',' ∧ c ≠ '\x7d')))

/-- `re.search`: try the positional matcher at each position left to right. -/
def reSearch {α : Type} (m : List Char → Option α) : List Char → Option α
  | [] => m []
  | l@(_ :: rest) =>
    match m l with
    | some a => some a
    | Option.none => reSearch m rest

/-- Whether the line-459 pattern's opening `"Overall Assessment":\s*{{`
occurs anywhere in the text. -/
def hasOAOpen : List Char → Bool
  | [] => matchOAOpen []
  | l@(_ :: rest) => if matchOAOpen l then true else hasOAOpen rest

/-- The category sub-record extraction (lines 450-455): the four short keys
`a`..`d`, each via the quoted-field pattern on the captured block. -/
def extractCatData (content : List Char) : PyDict :=
  [ "a", "b", "c", "d" ].foldl
    (fun acc k =>
      match reSearch (matchQuotedField k) content with
      | some v => dset acc k (.str v)
      | Option.none => acc) []

/-- The Overall Assessment sub-record extraction (lines 462-466). -/
def extractOAData (content : List Char) : PyDict :=
  [ "Final Score", "Letter Grade", "Summary", "Green Flags", "Red Flags" ].foldl
    (fun acc k =>
      match reSearch (matchLooseField k) content with
      | some v => dset acc k (.str v)
      | Option.none => acc) []

/-- `extract_structured_data` (src/analysis.py 432-468). -/
def extract_structured_data (t : List Char) : PyDict :=
  let d0 : PyDict := []
  let d1 :=
    match reSearch (matchQuotedField "Initial Assessment") t with
    | some v => dset d0 "Initial Assessment" (.str v)
    | Option.none => d0
  let d2 := categoryNames.foldl
    (fun acc name =>
      match reSearch (matchBraceField name) t with
      | some content => dset acc name (.dict (extractCatData content))
      | Option.none => acc) d1
  match reSearch matchOABlock t with
  | some content => dset d2 "Overall Assessment" (.dict (extractOAData content))
  | Option.none => d2

/-! ### `parse_and_clean_json` (src/analysis.py 278-358) -/

/-- Python `value.get(key, default)`: only dicts have `.get`; anything else
raises `AttributeError`. -/
def pyGetAttr (v : PyVal) (k : String) (dflt : PyVal) : Except PyErr PyVal :=
  match v with
  | .dict d => .ok (dgetD d k dflt)
  | _ => .error .attributeError

/-- Whether `p` occurs as a contiguous substring of `l`. -/
def subOccurs (p : List Char) : List Char → Bool
  | [] => p.isEmpty
  | l@(_ :: rest) => if (matchLit p l).isSome then true else subOccurs p rest

/-- Python `name in value` for a string left operand: dict key test, substring
test on strings, element test on lists; `TypeError` on non-containers. -/
def pyInStr (name : String) (v : PyVal) : Except PyErr Bool :=
  match v with
  | .dict d => .ok (dget d name).isSome
  | .str s => .ok (subOccurs name.toList s.toList)
  | .list xs => .ok (xs.any (fun x => match x with | .str s => s = name | _ => false))
  | _ => .error .typeError

/-- Python `value[name]` for a string subscript: dicts index by key
(guarded by `in` at every call site); anything else raises `TypeError`. -/
def pySubscript (v : PyVal) (name : String) : Except PyErr PyVal :=
  match v with
  | .dict d =>
    match dget d name with
    | some x => .ok x
    | Option.none => .error .valueError
  | _ => .error .typeError

/-- One restructured category record (lines 339-345 / 350-356): the four
short-key sub-fields of a matched category. -/
def restructCat (name : String) (catData : PyVal) : Except PyErr PyVal :=
  match pyGetAttr catData "a" (.str "") with
  | .error e => .error e
  | .ok a =>
    match pyGetAttr catData "b" (.str "") with
    | .error e => .error e
    | .ok b =>
      match pyGetAttr catData "c" (.int 0) with
      | .error e => .error e
      | .ok c =>
        match pyGetAttr catData "d" (.str "") with
        | .error e => .error e
        | .ok d =>
          .ok (.dict
            [ ("name", .str name), ("user_friendly_aspect", .str (pyStr a)),
              ("concerning_aspect", .str (pyStr b)), ("score", .float (safe_float c)),
              ("justification", .str (pyStr d)) ])

/-- The inner loop of the list branch (lines 335-345): for one element of the
`Categories` list, append a record for every declared name it contains. -/
def restructCatsOne (category : PyVal) (names : List String) :
    Except PyErr (List PyVal) :=
  match names with
  | [] => .ok []
  | n :: ns =>
    match pyInStr n category with
    | .error e => .error e
    | .ok false => restructCatsOne category ns
    | .ok true =>
      match pySubscript category n with
      | .error e => .error e
      | .ok catData =>
        match restructCat n catData with
        | .error e => .error e
        | .ok rec1 =>
          match restructCatsOne category ns with
          | .error e => .error e
          | .ok rest => .ok (rec1 :: rest)

/-- The list branch (lines 334-345): input order outer, declared order inner. -/
def restructCatsList (cats : List PyVal) : Except PyErr (List PyVal) :=
  match cats with
  | [] => .ok []
  | c :: cs =>
    match restructCatsOne c categoryNames with
    | .error e => .error e
    | .ok here =>
      match restructCatsList cs with
      | .error e => .error e
      | .ok rest => .ok (here ++ rest)

/-- The dict branch (lines 346-356): declared order, only names present. -/
def restructCatsDict (cd : PyDict) (names : List String) :
    Except PyErr (List PyVal) :=
  match names with
  | [] => .ok []
  | n :: ns =>
    match dget cd n with
    | Option.none => restructCatsDict cd ns
    | some catData =>
      match restructCat n catData with
      | .error e => .error e
      | .ok rec1 =>
        match restructCatsDict cd ns with
        | .error e => .error e
        | .ok rest => .ok (rec1 :: rest)

/-- The base record of lines 309-317: every field at its default, the initial
assessment as `str(parsed.get("Initial Assessment", ""))`. -/
def restructBase (ia : PyVal) : PyDict :=
  [ ("initial_assessment", .str (pyStr ia)), ("categories", .list []),
    ("final_score", .int 0), ("letter_grade", .str ""), ("summary", .str ""),
    ("green_flags", .list []), ("red_flags", .list []) ]

/-- Lines 319-326: overwrite the five overall fields when the
`Overall Assessment` value is a dict (the `list(...)` calls may raise). -/
def restructOA (base : PyDict) (oa : PyVal) : Except PyErr PyDict :=
  match oa with
  | .dict od =>
    match pyListC (dgetD od "Green Flags" (.list [])) with
    | .error e => .error e
    | .ok gf =>
      match pyListC (dgetD od "Red Flags" (.list [])) with
      | .error e => .error e
      | .ok rf =>
        .ok (dset (dset (dset (dset (dset base "final_score"
              (.float (safe_float (dgetD od "Final Score" (.int 0)))))
            "letter_grade" (.str (pyStr (dgetD od "Letter Grade" (.str "")))))
          "summary" (.str (pyStr (dgetD od "Summary" (.str "")))))
          "green_flags" (.list gf)) "red_flags" (.list rf))
  | _ => .ok base

/-- Lines 328-356: the category list, per the shape of `Categories`. -/
def restructCats (cats : PyVal) : Except PyErr (List PyVal) :=
  match cats with
  | .list xs => restructCatsList xs
  | .dict cd => restructCatsDict cd categoryNames
  | _ => .ok []

/-- The restructuring step of `parse_and_clean_json` (lines 308-358), applied
to whatever the parse tiers produced. -/
def restructure (parsed : PyVal) : Except PyErr PyDict :=
  match pyGetAttr parsed "Initial Assessment" (.str "") with
  | .error e => .error e
  | .ok ia =>
    match pyGetAttr parsed "Overall Assessment" (.dict []) with
    | .error e => .error e
    | .ok oa =>
      match restructOA (restructBase ia) oa with
      | .error e => .error e
      | .ok base2 =>
        match pyGetAttr parsed "Categories" (.list []) with
        | .error e => .error e
        | .ok cats =>
          match restructCats cats with
          | .error e => .error e
          | .ok cs => .ok (dset base2 "categories" (.list cs))

/-- The failure record of `parse_and_clean_json` (lines 303-306). -/
def parseFailDict (t : List Char) : PyDict :=
  [ ("error", .str "Failed to parse the API response as JSON, even after cleaning."),
    ("raw_response", .str (String.mk (t.take 1000))) ]

/-- `parse_and_clean_json` (src/analysis.py 278-358): strict parse, then
repair and re-parse, then the structured extractor, then restructure; only
an empty extraction yields the failure record. -/
def parse_and_clean_json (t : List Char) : Except PyErr PyDict :=
  match json_loads t with
  | .ok p => restructure p
  | .error _ =>
    match json_loads (clean_json_response t) with
    | .ok p => restructure p
    | .error _ =>
      if (extract_structured_data (clean_json_response t)).isEmpty then
        .ok (parseFailDict t)
      else restructure (.dict (extract_structured_data (clean_json_response t)))

/-! ### `post_process_analysis` (src/analysis.py 181-234) -/

/-- Lines 186-191: the initial assessment value (an empty list when the
`Initial Assessment` key is missing or not a dict). -/
def ppIA (a : PyDict) : PyVal :=
  match dgetD a "Initial Assessment" (.dict []) with
  | .dict d => dgetD d "notable_aspects" (.list [])
  | _ => .list []

/-- One normalized category record of lines 203-209. -/
def ppCatRec (name : String) (cd : PyDict) (s : PyFloat) : PyVal :=
  .dict
    [ ("name", .str name),
      ("user_friendly_aspect", dgetD cd "user_friendly_aspect" (.str "")),
      ("concerning_aspect", dgetD cd "concerning_aspect" (.str "")),
      ("score", .float s), ("justification", dgetD cd "justification" (.str "")) ]

/-- Lines 194-209: walk the declared names; a missing name defaults to `{}`
(which is a dict, so a record is still produced); `float(...)` may raise. -/
def ppCats (a : PyDict) : List String → Except PyErr (List PyVal)
  | [] => .ok []
  | n :: ns =>
    match dgetD a n (.dict []) with
    | .dict cd =>
      match pyFloatOf (dgetD cd "score" (.int 0)) with
      | .error e => .error e
      | .ok s =>
        match ppCats a ns with
        | .error e => .error e
        | .ok rest => .ok (ppCatRec n cd s :: rest)
    | _ => ppCats a ns

/-- Lines 212-225: the overall-assessment quintuple
(final score, letter grade, summary, green flags, red flags). -/
def ppOA (a : PyDict) : Except PyErr (PyVal × PyVal × PyVal × PyVal × PyVal) :=
  match dgetD a "Overall Assessment" (.dict []) with
  | .dict oa =>
    match pyFloatOf (dgetD oa "final_score" (.int 0)) with
    | .error e => .error e
    | .ok f =>
      .ok (.float f, dgetD oa "letter_grade" (.str ""), dgetD oa "summary" (.str ""),
        dgetD oa "green_flags" (.list []), dgetD oa "red_flags" (.list []))
  | _ => .ok (.int 0, .str "", .str "", .list [], .list [])

/-- Line 228: `max(0, min(10, float(analysis['final_score'])))` after the
float coercion succeeded (Python `min`/`max` return one of their operands, so
the boundary results are the int literals `0`/`10`). -/
def ppClamp (f : PyFloat) : PyVal :=
  pyMaxV (.int 0) (pyMinV (.int 10) (.float f) pyLtV) pyLtV

/-- The dict state after line 228. -/
def ppA4 (a : PyDict) (f : PyFloat) : PyDict := dset a "final_score" (ppClamp f)

/-- The dict state after line 229. -/
def ppA5 (a : PyDict) (f : PyFloat) : PyDict :=
  dset (ppA4 a f) "letter_grade" (.str (pyStr (dgetD (ppA4 a f) "letter_grade" .pynone)))

/-- The dict state after line 230. -/
def ppA6 (a : PyDict) (f : PyFloat) : PyDict :=
  dset (ppA5 a f) "summary" (.str (pyStr (dgetD (ppA5 a f) "summary" .pynone)))

/-- Lines 227-233: clamp the final score, coerce the string fields, and
listify the flags (`list(...)` may raise `TypeError`). -/
def ppFinal (a : PyDict) : Except PyErr PyDict :=
  match pyFloatOf (dgetD a "final_score" .pynone) with
  | .error e => .error e
  | .ok f =>
    match pyListC (dgetD (ppA6 a f) "green_flags" .pynone) with
    | .error e => .error e
    | .ok gl =>
      match pyListC (dgetD (dset (ppA6 a f) "green_flags" (.list gl))
          "red_flags" .pynone) with
      | .error e => .error e
      | .ok rl => .ok (dset (dset (ppA6 a f) "green_flags" (.list gl))
          "red_flags" (.list rl))

/-- The dict case of `post_process_analysis`: set the initial assessment,
walk the categories, read the overall assessment, and finalize — each step
reading the dict state the source mutation order produces. -/
def post_process_dict (a0 : PyDict) : Except PyErr PyDict :=
  match ppCats (dset a0 "initial_assessment" (ppIA a0)) categoryNames with
  | .error e => .error e
  | .ok cs =>
    match ppOA (dset (dset a0 "initial_assessment" (ppIA a0))
        "categories" (.list cs)) with
    | .error e => .error e
    | .ok (fs, lg, sm, gf, rf) =>
      ppFinal (dset (dset (dset (dset (dset
        (dset (dset a0 "initial_assessment" (ppIA a0)) "categories" (.list cs))
        "final_score" fs) "letter_grade" lg) "summary" sm) "green_flags" gf)
        "red_flags" rf)

/-- `post_process_analysis` (src/analysis.py 181-234): mutate the input dict
in place — non-dicts raise `ValueError`; unparsable numeric fields raise
through the bare `float(...)` calls; non-iterable flag values raise through
`list(...)`. -/
def post_process_analysis (v : PyVal) : Except PyErr PyDict :=
  match v with
  | .dict a0 => post_process_dict a0
  | _ => .error .valueError

/-! ### The response-parsing stage of `analyze_tos` (src/analysis.py 153-169)

`analyze_tos` itself performs the model call; everything from the moment
`response.text` exists is pure and embedded here: a strict `json.loads`
whose failure returns an error record immediately, then
`post_process_analysis` guarded by `except ValueError` (other exceptions
fall to the generic handler of lines 177-179). -/
def analyze_tos_parse (t : List Char) (company : String) : PyDict :=
  match json_loads t with
  | .error _ =>
    [ ("error", .str "Unable to parse the JSON response from Gemini API") ]
  | .ok v =>
    match post_process_analysis v with
    | .ok d => dset d "company_name" (.str company)
    | .error .valueError =>
      [ ("error", .str "Error in post-processing"),
        ("raw_response", .str (String.mk (t.take 1000))) ]
    | .error _ =>
      [ ("error", .str "An error occurred while analyzing the Terms of Service") ]

/-! ### The score aggregator (spec §4.5) -/

/-- Round to one decimal place, half away from zero (spec §4.5). -/
def roundHalfAway1 (q : ℚ) : ℚ :=
  let x := q * 10
  let n : ℤ := if 0 ≤ x then ⌊x + 1 / 2⌋ else -⌊-x + 1 / 2⌋
  (n : ℚ) / 10

/-- Modelled from the spec: the §4.5 aggregation policy hooks are absent from
src/ (the repository takes the final score from the model's own output), so
they are modelled from the spec's words: an optional hard ceiling, an optional
multiplicative penalty applied once per category below a threshold, and an
optional floor-clamp triggered when any category falls below a lower
threshold. -/
structure AggPolicy where
  ceiling : Option ℚ
  penalty : Option (ℚ × ℚ)
  floorClamp : Option (ℚ × ℚ)

/-- The policy with every hook disabled. -/
def noAggPolicy : AggPolicy := ⟨Option.none, Option.none, Option.none⟩

/-- `Σ (score × weight)` over (score, weight) pairs. -/
def weightedTotal (cats : List (ℚ × ℚ)) : ℚ := (cats.map (fun c => c.1 * c.2)).sum

/-- `Σ weight` over (score, weight) pairs. -/
def totalWeight (cats : List (ℚ × ℚ)) : ℚ := (cats.map (fun c => c.2)).sum

/-- Modelled from the spec: the §4.5 score aggregator is absent from src/
(no aggregation code exists in the repository; `final_score` arrives from the
model).  Per the spec: weighted mean normalized by the actual total weight,
then per-category penalties, then the floor clamp, then the ceiling cap, then
rounding to one decimal half-away-from-zero. -/
def aggregate (cats : List (ℚ × ℚ)) (pol : AggPolicy) : ℚ :=
  let mean := (cats.foldl (fun acc c => acc + c.1 * c.2) 0) /
    (cats.foldl (fun acc c => acc + c.2) 0)
  let p1 :=
    match pol.penalty with
    | some tf => mean * tf.2 ^ (cats.filter (fun c => decide (c.1 < tf.1))).length
    | Option.none => mean
  let p2 :=
    match pol.floorClamp with
    | some lf => if cats.any (fun c => decide (c.1 < lf.1)) then min p1 lf.2 else p1
    | Option.none => p1
  let p3 :=
    match pol.ceiling with
    | some cap => min p2 cap
    | Option.none => p2
  roundHalfAway1 p3

/-- The worked example of spec §8: categories `[(8,15),(4,25),(6,10)]`. -/
def exampleCats : List (ℚ × ℚ) := [ (8, 15), (4, 25), (6, 10) ]

/-! ### Dict lemmas -/

theorem dget_dset_self (d : PyDict) (k : String) (v : PyVal) :
    dget (dset d k v) k = some v := by
  induction d with
  | nil => simp [dset, dget]
  | cons kv rest ih =>
    by_cases h : kv.1 = k
    · simp [dset, dget, h]
    · simp [dset, dget, h, ih]

theorem dget_dset_ne (d : PyDict) (k k' : String) (v : PyVal) (h : k' ≠ k) :
    dget (dset d k v) k' = dget d k' := by
  induction d with
  | nil =>
    have hne : ¬ k = k' := fun hh => h hh.symm
    simp [dset, dget, hne]
  | cons kv rest ih =>
    by_cases hk : kv.1 = k
    · subst hk
      simp only [dset, if_pos rfl, dget]
      have : kv.1 ≠ k' := fun hh => h hh.symm
      simp [this]
    · simp [dset, hk, dget, ih]

theorem foldl_add_map {α : Type} (f : α → ℚ) (l : List α) (x : ℚ) :
    l.foldl (fun acc c => acc + f c) x = x + (l.map f).sum := by
  induction l generalizing x with
  | nil => simp
  | cons c cs ih => simp [List.foldl_cons, ih, add_assoc]

theorem aggregate_noPolicy (cs : List (ℚ × ℚ)) :
    aggregate cs noAggPolicy = roundHalfAway1 (weightedTotal cs / totalWeight cs) := by
  simp only [aggregate, noAggPolicy, weightedTotal, totalWeight]
  rw [foldl_add_map (fun c => c.1 * c.2) cs 0, foldl_add_map (fun c => c.2) cs 0]
  simp

/-- C7: the aggregator computes `round1(Σ(sᵢwᵢ)/Σwᵢ)` — normalized by the
actual total weight with half-away-from-zero rounding to one decimal — and on
the spec's worked example `[(8,15),(4,25),(6,10)]` with no penalties or
ceiling it yields `5.6`.  (In the rational model the quotient form holds for
every category list; a zero total weight never arises in the spec's setting.) -/
theorem toser_C7_weighted_mean :
    (∀ cs : List (ℚ × ℚ),
      aggregate cs noAggPolicy = roundHalfAway1 (weightedTotal cs / totalWeight cs)) ∧
    aggregate exampleCats noAggPolicy = (5.6 : ℚ) := by
  refine ⟨aggregate_noPolicy, ?_⟩
  rw [aggregate_noPolicy]
  have h1 : weightedTotal exampleCats / totalWeight exampleCats = 28 / 5 := by
    norm_num [weightedTotal, totalWeight, exampleCats]
  rw [h1]
  have h2 : (28 : ℚ) / 5 * 10 = 56 := by norm_num
  have h3 : (0 : ℚ) ≤ 28 / 5 * 10 := by norm_num
  simp only [roundHalfAway1, h2, if_pos (h2 ▸ h3)]
  have h4 : ((56 : ℚ) + 1 / 2) = 113 / 2 := by norm_num
  rw [h4]
  have h5 : ⌊(113 / 2 : ℚ)⌋ = 56 := by
    rw [Int.floor_eq_iff]
    norm_num
  rw [h5]
  norm_num

/-- If the full Overall Assessment pattern of line 459 matches at a position,
so does its opening `"Overall Assessment":\s*{{` part. -/
theorem matchOABlock_open {l : List Char} {c : List Char}
    (h : matchOABlock l = some c) : matchOAOpen l = true := by
  unfold matchOABlock at h
  unfold matchOAOpen
  cases hr : matchOAOpenRem l with
  | some r2 => rfl
  | none => rw [hr] at h; exact absurd h (by simp)

/-- If the extractor's Overall Assessment search succeeds anywhere, the text
contains the opening pattern. -/
theorem reSearch_OA_open {t : List Char} {c : List Char}
    (h : reSearch matchOABlock t = some c) : hasOAOpen t = true := by
  induction t with
  | nil =>
    unfold reSearch at h
    unfold hasOAOpen
    exact matchOABlock_open h
  | cons x rest ih =>
    unfold reSearch at h
    unfold hasOAOpen
    cases hm : matchOABlock (x :: rest) with
    | some c2 => simp [matchOABlock_open hm]
    | none =>
      rw [hm] at h
      split
      · rfl
      · exact ih h

/-- A fold of category-block extractions never touches a key outside the
folded name list. -/
theorem dget_extract_fold (t : List Char) (ns : List String) (acc : PyDict)
    (k : String) (h : ∀ n ∈ ns, n ≠ k) :
    dget (ns.foldl
      (fun acc name =>
        match reSearch (matchBraceField name) t with
        | some content => dset acc name (.dict (extractCatData content))
        | Option.none => acc) acc) k = dget acc k := by
  induction ns generalizing acc with
  | nil => rfl
  | cons n ns ih =>
    have hn : n ≠ k := h n (by simp)
    have hns : ∀ m ∈ ns, m ≠ k := fun m hm => h m (by simp [hm])
    simp only [List.foldl_cons]
    cases hm : reSearch (matchBraceField n) t with
    | some content =>
      rw [ih _ hns, dget_dset_ne _ _ _ _ (fun hh => hn hh.symm)]
    | none => exact ih _ hns

/-- C10: on any text without the literal `{{` opening after an
`"Overall Assessment":` key (the line-459 pattern is a plain raw string, so
its doubled braces are literal), `extract_structured_data` yields a mapping
with no `Overall Assessment` key — so the extractor can never recover the
final score, letter grade, summary or flags from ordinary single-brace
JSON-like text, all of which are read from that entry. -/
theorem toser_C10_extract_OA (t : List Char) (h : hasOAOpen t = false) :
    dget (extract_structured_data t) "Overall Assessment" = Option.none := by
  unfold extract_structured_data
  cases hs : reSearch matchOABlock t with
  | some content => exact absurd (reSearch_OA_open hs) (by simp [h])
  | none =>
    have hns : ∀ n ∈ categoryNames, n ≠ "Overall Assessment" := by decide
    rw [dget_extract_fold t categoryNames _ _ hns]
    cases hi : reSearch (matchQuotedField "Initial Assessment") t with
    | some v =>
      rw [dget_dset_ne _ _ _ _ (by decide)]
      rfl
    | none => rfl

/-- An ordinary single-brace JSON text naming an Overall Assessment block. -/
def oaProbe : List Char :=
  String.toList "\x7b\"Overall Assessment\": \x7b\"Final Score\": 5\x7d\x7d"

/-- Witness for C10 at a concrete single-brace text. -/
theorem toser_C10_extract_OA_witness :
    hasOAOpen oaProbe = false ∧
      dget (extract_structured_data oaProbe) "Overall Assessment" = Option.none :=
  ⟨by decide, toser_C10_extract_OA oaProbe (by decide)⟩

/-! ### Concrete pipeline records -/

/-- The record `parse_and_clean_json` builds when every source field is
absent: all type-appropriate defaults (`safe_float(0)` is the float `0.0`). -/
def defaultRestructured : PyDict :=
  [ ("initial_assessment", .str ""), ("categories", .list []),
    ("final_score", .float (.fin 0)), ("letter_grade", .str ""), ("summary", .str ""),
    ("green_flags", .list []), ("red_flags", .list []) ]

/-- The spec §8 truncation example. -/
def c4input : List Char :=
  String.toList "\x7b\"categories\":[\x7b\"name\":\"A\",\"score\":5\x7d,\x7b\"name\":\"B\""

/-- What the repair chain actually produces on the truncation example: the
incomplete `"B"` entry is closed into an object by the brace appended at the
wrap step, and the unbalanced closers are appended braces-first, giving
`…{"name":"B"}}]`, which is not valid JSON. -/
def c4cleaned : List Char :=
  String.toList
    "\x7b\"categories\":[\x7b\"name\":\"A\",\"score\":5\x7d,\x7b\"name\":\"B\"\x7d\x7d]"

/-- C4: on the spec's truncation example the repair chain yields text that
still fails strict parsing (with the very `Expecting ',' delimiter` category
the repair keyed on), and the pipeline then returns its failure record instead
of a record containing category A — the truncation-repair code does not do
what its own comments (lines 400-413, `attempt to close the JSON structure`)
and the spec intend. -/
theorem toser_C4_truncation_eval :
    clean_json_response c4input = c4cleaned ∧
      json_loads c4cleaned = .error .expComma ∧
      parse_and_clean_json c4input = .ok (parseFailDict c4input) :=
  ⟨rfl, rfl, rfl⟩

/-- C5 counterexample: on the empty string the pipeline returns a record with
no `error` key at all — a defaulted success record, not a `ParseFailure`
failure record as the claim states. -/
theorem toser_C5_cex :
    ∃ d, parse_and_clean_json (String.toList "") = .ok d ∧
      dget d "error" = Option.none :=
  ⟨defaultRestructured, rfl, rfl⟩

/-- C5 amended: applied to the empty string the pipeline never raises, but it
returns the fully defaulted success record — the repair tier turns `""` into
`{}`, which parses, so no failure record is produced. -/
theorem toser_C5_amended :
    parse_and_clean_json (String.toList "") = .ok defaultRestructured := rfl

/-! ### C1: tier exhaustion -/

/-- `Except.isOk` as a plain definition over the embedding's result type. -/
def isOkE {ε α : Type} : Except ε α → Bool
  | .ok _ => true
  | .error _ => false

/-- `restructOA` only overwrites the five overall fields: any other key of the
base record reads back unchanged. -/
theorem restructOA_dget {base : PyDict} {oa : PyVal} {b2 : PyDict} (k : String)
    (hk1 : k ≠ "final_score") (hk2 : k ≠ "letter_grade") (hk3 : k ≠ "summary")
    (hk4 : k ≠ "green_flags") (hk5 : k ≠ "red_flags")
    (h : restructOA base oa = .ok b2) : dget b2 k = dget base k := by
  unfold restructOA at h
  split at h
  · split at h
    · exact absurd h (by simp)
    · split at h
      · exact absurd h (by simp)
      · cases h
        rw [dget_dset_ne _ _ _ _ hk5, dget_dset_ne _ _ _ _ hk4,
          dget_dset_ne _ _ _ _ hk3, dget_dset_ne _ _ _ _ hk2,
          dget_dset_ne _ _ _ _ hk1]
  · cases h
    rfl

/-- The restructuring step never produces a record with an `error` key: its
output keys are the seven fixed schema fields. -/
theorem restructure_no_error {p : PyVal} {r : PyDict}
    (h : restructure p = .ok r) : dget r "error" = Option.none := by
  unfold restructure at h
  split at h
  · exact absurd h (by simp)
  · split at h
    · exact absurd h (by simp)
    · split at h
      · exact absurd h (by simp)
      · rename_i ia _ oa _ base2 hbase2
        split at h
        · exact absurd h (by simp)
        · split at h
          · exact absurd h (by simp)
          · rename_i cats _ cs _
            cases h
            rw [dget_dset_ne _ _ _ _ (by decide),
              restructOA_dget "error" (by decide) (by decide) (by decide)
                (by decide) (by decide) hbase2]
            rfl

/-- C1 amended: within `parse_and_clean_json` a failure record is indeed
produced only after every tier is exhausted — strict parse failed, the
repaired text failed to parse, and the extractor found nothing — but the
deployed entry point `analyze_tos` (lines 153-157) returns a parse-failure
record immediately when strict parsing fails, without invoking the repair
chain or the extractor (see the counterexample). -/
theorem toser_C1_amended (t : List Char) (r : PyDict)
    (h1 : parse_and_clean_json t = .ok r)
    (h2 : dget r "error" ≠ Option.none) :
    (∃ e, json_loads t = .error e) ∧
      (∃ e, json_loads (clean_json_response t) = .error e) ∧
      extract_structured_data (clean_json_response t) = [] := by
  unfold parse_and_clean_json at h1
  split at h1
  · exact absurd (restructure_no_error h1) h2
  · rename_i e heq
    refine ⟨⟨e, heq⟩, ?_⟩
    split at h1
    · exact absurd (restructure_no_error h1) h2
    · rename_i e2 heq2
      refine ⟨⟨e2, heq2⟩, ?_⟩
      split at h1
      · rename_i he
        exact List.isEmpty_iff.mp he
      · exact absurd (restructure_no_error h1) h2

/-- A text on which all three tiers fail. -/
def c1exhaust : List Char := String.toList "\x7b\"a\": b\x7d"

/-- Witness for C1 amended: on `{"a": b}` the failure record is produced and
indeed every tier failed. -/
theorem toser_C1_amended_witness :
    (∃ e, json_loads c1exhaust = .error e) ∧
      (∃ e, json_loads (clean_json_response c1exhaust) = .error e) ∧
      extract_structured_data (clean_json_response c1exhaust) = [] :=
  toser_C1_amended c1exhaust (parseFailDict c1exhaust) rfl
    (fun h => Option.noConfusion h)

/-- A raw text whose strict parse fails but which the repair tier fixes. -/
def c1repairable : List Char := String.toList "\x7b\"a\": 1,\x7d"

/-- C1 counterexample: on `{"a": 1,}` the entry point `analyze_tos` returns a
failure record at once (its strict parse failed), even though the repair tier
alone would have recovered a record — `parse_and_clean_json` on the same text
succeeds with no `error` key.  A failure is thus returned without the tiers
being exhausted. -/
theorem toser_C1_cex :
    analyze_tos_parse c1repairable "X" =
      [ ("error", .str "Unable to parse the JSON response from Gemini API") ] ∧
      ∃ d, parse_and_clean_json c1repairable = .ok d ∧ dget d "error" = Option.none :=
  ⟨rfl, defaultRestructured, rfl, rfl⟩

/-! ### C2, C3, C8, C9: the normalizer -/

/-- `dgetD` through a `dset` at a different key. -/
theorem dgetD_dset_ne (d : PyDict) (k k' : String) (v dflt : PyVal) (h : k' ≠ k) :
    dgetD (dset d k v) k' dflt = dgetD d k' dflt := by
  unfold dgetD
  rw [dget_dset_ne _ _ _ _ h]

/-- The per-name condition under which one category step of
`post_process_analysis` cannot raise. -/
def catOk (a : PyDict) (n : String) : Bool :=
  match dgetD a n (.dict []) with
  | .dict cd => isOkE (pyFloatOf (dgetD cd "score" (.int 0)))
  | _ => true

/-- The overall-assessment condition under which `ppOA` and the later flag
coercions cannot raise. -/
def ppOACond (d : PyDict) : Bool :=
  match dgetD d "Overall Assessment" (.dict []) with
  | .dict oa =>
    isOkE (pyFloatOf (dgetD oa "final_score" (.int 0))) &&
      isOkE (pyListC (dgetD oa "green_flags" (.list []))) &&
      isOkE (pyListC (dgetD oa "red_flags" (.list [])))
  | _ => true

/-- The decidable condition under which `post_process_analysis` cannot raise:
every category score coercible and, when an `Overall Assessment` dict is
present, its final score coercible and its flags listable. -/
def ppTotalOk (d : PyDict) : Bool :=
  (categoryNames.all (fun n => catOk d n)) && ppOACond d

theorem isOkE_exists {ε α : Type} {x : Except ε α} (h : isOkE x = true) :
    ∃ v, x = .ok v := by
  cases x with
  | ok v => exact ⟨v, rfl⟩
  | error e => exact absurd h (by simp [isOkE])

/-- When every name's condition holds, the category walk succeeds. -/
theorem ppCats_isOk (a : PyDict) (ns : List String)
    (h : ns.all (fun n => catOk a n) = true) : isOkE (ppCats a ns) = true := by
  induction ns with
  | nil => rfl
  | cons n ns ih =>
    have hn : catOk a n = true := by
      have := List.all_eq_true.mp h n (by simp)
      simpa using this
    have hns : ns.all (fun n => catOk a n) = true := by
      apply List.all_eq_true.mpr
      intro m hm
      exact List.all_eq_true.mp h m (by simp [hm])
    have ihn := ih hns
    unfold ppCats
    unfold catOk at hn
    split
    · rename_i cd heq
      rw [heq] at hn
      have hn2 : isOkE (pyFloatOf (dgetD cd "score" (.int 0))) = true := hn
      split
      · rename_i e heq2
        rw [heq2] at hn2
        exact absurd hn2 (by simp [isOkE])
      · split
        · rename_i e heq3
          rw [heq3] at ihn
          exact absurd ihn (by simp [isOkE])
        · rfl
    · exact ihn

/-- Under the overall condition `ppOA` succeeds. -/
theorem ppOA_isOk (a : PyDict) (h : ppOACond a = true) :
    isOkE (ppOA a) = true := by
  unfold ppOA
  unfold ppOACond at h
  split
  · rename_i oa heq
    rw [heq] at h
    have h2 : (isOkE (pyFloatOf (dgetD oa "final_score" (.int 0))) &&
        isOkE (pyListC (dgetD oa "green_flags" (.list []))) &&
        isOkE (pyListC (dgetD oa "red_flags" (.list [])))) = true := h
    simp only [Bool.and_eq_true] at h2
    split
    · rename_i e heq2
      rw [heq2] at h2
      exact absurd h2.1.1 (by simp [isOkE])
    · rfl
  · rfl

/-- What the `ppOA` quintuple satisfies on success: a float-coercible score
component always, listable flag components under the overall condition. -/
theorem ppOA_inv {a : PyDict} {fs lg sm gf rf : PyVal}
    (h : ppOA a = .ok (fs, lg, sm, gf, rf)) (hc : ppOACond a = true) :
    isOkE (pyFloatOf fs) = true ∧ isOkE (pyListC gf) = true ∧
      isOkE (pyListC rf) = true := by
  unfold ppOA at h
  unfold ppOACond at hc
  split at h
  · rename_i oa heq
    rw [heq] at hc
    have hc2 : (isOkE (pyFloatOf (dgetD oa "final_score" (.int 0))) &&
        isOkE (pyListC (dgetD oa "green_flags" (.list []))) &&
        isOkE (pyListC (dgetD oa "red_flags" (.list [])))) = true := hc
    simp only [Bool.and_eq_true] at hc2
    split at h
    · exact absurd h (by simp)
    · cases h
      exact ⟨rfl, hc2.1.2, hc2.2⟩
  · cases h
    exact ⟨rfl, rfl, rfl⟩

/-- `ppA6` only rewrites `final_score`, `letter_grade` and `summary`. -/
theorem dgetD_ppA6_ne (a : PyDict) (f : PyFloat) (k : String) (dflt : PyVal)
    (h1 : k ≠ "final_score") (h2 : k ≠ "letter_grade") (h3 : k ≠ "summary") :
    dgetD (ppA6 a f) k dflt = dgetD a k dflt := by
  unfold ppA6 ppA5 ppA4
  rw [dgetD_dset_ne _ _ _ _ _ h3, dgetD_dset_ne _ _ _ _ _ h2,
    dgetD_dset_ne _ _ _ _ _ h1]

/-- The finalization step succeeds when the stored final score is coercible
and the stored flags are listable. -/
theorem ppFinal_isOk (a : PyDict)
    (h1 : isOkE (pyFloatOf (dgetD a "final_score" .pynone)) = true)
    (h2 : isOkE (pyListC (dgetD a "green_flags" .pynone)) = true)
    (h3 : isOkE (pyListC (dgetD a "red_flags" .pynone)) = true) :
    isOkE (ppFinal a) = true := by
  unfold ppFinal
  split
  · rename_i e heq
    rw [heq] at h1
    exact absurd h1 (by simp [isOkE])
  · rename_i f heq
    split
    · rename_i e heq2
      rw [dgetD_ppA6_ne a f _ _ (by decide) (by decide) (by decide)] at heq2
      rw [heq2] at h2
      exact absurd h2 (by simp [isOkE])
    · rename_i gl heq2
      split
      · rename_i e heq3
        rw [dgetD_dset_ne _ _ _ _ _ (by decide),
          dgetD_ppA6_ne a f _ _ (by decide) (by decide) (by decide)] at heq3
        rw [heq3] at h3
        exact absurd h3 (by simp [isOkE])
      · rfl

theorem dgetD_dset_self (d : PyDict) (k : String) (v dflt : PyVal) :
    dgetD (dset d k v) k dflt = v := by
  unfold dgetD
  rw [dget_dset_self]
  rfl

/-- Every declared category name differs from the keys the normalizer writes
before reading them. -/
theorem categoryNames_ne_ia : ∀ n ∈ categoryNames, n ≠ "initial_assessment" := by
  decide

/-- Under `ppTotalOk`, `post_process_analysis` succeeds (cannot raise). -/
theorem post_process_isOk (d : PyDict) (h : ppTotalOk d = true) :
    isOkE (post_process_analysis (.dict d)) = true := by
  unfold ppTotalOk at h
  simp only [Bool.and_eq_true] at h
  obtain ⟨hcats, hoa⟩ := h
  have hcat1 : categoryNames.all
      (fun n => catOk (dset d "initial_assessment" (ppIA d)) n) = true := by
    rw [List.all_eq_true] at hcats ⊢
    intro n hn
    have e1 : catOk (dset d "initial_assessment" (ppIA d)) n = catOk d n := by
      unfold catOk
      rw [dgetD_dset_ne _ _ _ _ _ (categoryNames_ne_ia n hn)]
    rw [e1]
    exact hcats n hn
  show isOkE (post_process_dict d) = true
  unfold post_process_dict
  split
  · rename_i e heq
    have hc := ppCats_isOk _ categoryNames hcat1
    rw [heq] at hc
    exact absurd hc (by simp [isOkE])
  · rename_i cs heq
    have hoa2 : ppOACond (dset (dset d "initial_assessment" (ppIA d))
        "categories" (.list cs)) = true := by
      unfold ppOACond
      rw [dgetD_dset_ne _ _ _ _ _ (by decide), dgetD_dset_ne _ _ _ _ _ (by decide)]
      exact hoa
    split
    · rename_i e heq2
      have ho := ppOA_isOk _ hoa2
      rw [heq2] at ho
      exact absurd ho (by simp [isOkE])
    · rename_i quint fs lg sm gf rf heq2
      obtain ⟨hfs, hgf, hrf⟩ := ppOA_inv heq2 hoa2
      apply ppFinal_isOk
      · rw [dgetD_dset_ne _ _ _ _ _ (by decide), dgetD_dset_ne _ _ _ _ _ (by decide),
          dgetD_dset_ne _ _ _ _ _ (by decide), dgetD_dset_ne _ _ _ _ _ (by decide),
          dgetD_dset_self]
        exact hfs
      · rw [dgetD_dset_ne _ _ _ _ _ (by decide), dgetD_dset_self]
        exact hgf
      · rw [dgetD_dset_self]
        exact hrf

/-- C2 amended: `post_process_analysis` is total on the empty mapping and on
every mapping whose numeric score fields are float-coercible and whose flag
fields are iterable (`ppTotalOk`), but an unparsable numeric value raises
`ValueError` rather than defaulting (see the counterexample); the
0-defaulting of unparsable values lives in `safe_float`, which only
`parse_and_clean_json` uses. -/
theorem toser_C2_amended :
    (∀ d : PyDict, ppTotalOk d = true →
      ∃ r, post_process_analysis (.dict d) = .ok r) ∧
    (∀ v : PyVal, isOkE (pyFloatOf v) = false → safe_float v = .fin 0) := by
  constructor
  · intro d h
    exact isOkE_exists (post_process_isOk d h)
  · intro v h
    unfold safe_float
    cases hf : pyFloatOf v with
    | ok f => rw [hf] at h; exact absurd h (by simp [isOkE])
    | error e => rfl

/-- Witness for C2 amended at the empty mapping and an unparsable string. -/
theorem toser_C2_amended_witness :
    (ppTotalOk [] = true ∧ ∃ r, post_process_analysis (.dict []) = .ok r) ∧
      (isOkE (pyFloatOf (.str "zz")) = false ∧ safe_float (.str "zz") = .fin 0) :=
  ⟨⟨rfl, toser_C2_amended.1 [] rfl⟩, ⟨rfl, toser_C2_amended.2 (.str "zz") rfl⟩⟩

/-- C2 counterexample: an unparsable numeric value makes
`post_process_analysis` raise `ValueError` instead of defaulting to `0` — the
bare `float(...)` on line 215 has no handler (`analyze_tos` catches it at
line 164 and returns an error record). -/
theorem toser_C2_cex :
    post_process_analysis
      (.dict [ ("Overall Assessment", .dict [ ("final_score", .str "abc") ]) ]) =
      .error .valueError := rfl

/-- The clamp of line 228 always lands in `[0, 10]`: a finite float stays put
when inside, the boundaries yield the int literals, and the non-finite floats
(`inf` to 10, `-inf` to 0, `nan` to 10 — Python comparisons with `nan` are
false, so `min(10, nan)` is `10`) also land on the boundaries. -/
theorem ppClamp_bounds (f : PyFloat) :
    ∃ q, valToQ (ppClamp f) = some q ∧ 0 ≤ q ∧ q ≤ 10 := by
  cases f with
  | fin q =>
    simp only [ppClamp, pyMinV, pyMaxV, pyLtV, pyFloatLt]
    split_ifs with h1 h2 h2
    · simp only [decide_eq_true_eq] at h1 h2
      refine ⟨q, rfl, le_of_lt ?_, le_of_lt ?_⟩
      · exact_mod_cast h2
      · exact_mod_cast h1
    · refine ⟨0, ?_, le_refl 0, by norm_num⟩
      norm_num [valToQ]
    · refine ⟨10, ?_, by norm_num, le_refl 10⟩
      norm_num [valToQ]
    · simp at h2
  | pinf => exact ⟨10, by norm_num [ppClamp, pyMinV, pyMaxV, pyLtV, pyFloatLt, valToQ], by norm_num, le_refl 10⟩
  | ninf => exact ⟨0, by norm_num [ppClamp, pyMinV, pyMaxV, pyLtV, pyFloatLt, valToQ], le_refl 0, by norm_num⟩
  | nan => exact ⟨10, by norm_num [ppClamp, pyMinV, pyMaxV, pyLtV, pyFloatLt, valToQ], by norm_num, le_refl 10⟩

/-- On success, the finalization step stores the clamped final score. -/
theorem ppFinal_final_score {a : PyDict} {r : PyDict}
    (h : ppFinal a = .ok r) :
    ∃ f, pyFloatOf (dgetD a "final_score" .pynone) = .ok f ∧
      dget r "final_score" = some (ppClamp f) := by
  unfold ppFinal at h
  split at h
  · exact absurd h (by simp)
  · rename_i f heq
    split at h
    · exact absurd h (by simp)
    · split at h
      · exact absurd h (by simp)
      · cases h
        refine ⟨f, heq, ?_⟩
        rw [dget_dset_ne _ _ _ _ (by decide), dget_dset_ne _ _ _ _ (by decide)]
        unfold ppA6 ppA5 ppA4
        rw [dget_dset_ne _ _ _ _ (by decide), dget_dset_ne _ _ _ _ (by decide),
          dget_dset_self]

/-- On success, the finalization step leaves keys outside its five written
fields untouched. -/
theorem ppFinal_preserves {a : PyDict} {r : PyDict} (k : String)
    (h1 : k ≠ "final_score") (h2 : k ≠ "letter_grade") (h3 : k ≠ "summary")
    (h4 : k ≠ "green_flags") (h5 : k ≠ "red_flags")
    (h : ppFinal a = .ok r) : dget r k = dget a k := by
  unfold ppFinal at h
  split at h
  · exact absurd h (by simp)
  · rename_i f heq
    split at h
    · exact absurd h (by simp)
    · split at h
      · exact absurd h (by simp)
      · cases h
        rw [dget_dset_ne _ _ _ _ h5, dget_dset_ne _ _ _ _ h4]
        unfold ppA6 ppA5 ppA4
        rw [dget_dset_ne _ _ _ _ h3, dget_dset_ne _ _ _ _ h2,
          dget_dset_ne _ _ _ _ h1]

/-- C3 amended: whenever `post_process_analysis` succeeds, the stored
`final_score` is a numeric value within `[0, 10]`; category scores, however,
are only coerced to float, never clamped to the category range (see the
counterexample). -/
theorem toser_C3_amended (d : PyDict) (r : PyDict)
    (h : post_process_analysis (.dict d) = .ok r) :
    ∃ v q, dget r "final_score" = some v ∧ valToQ v = some q ∧ 0 ≤ q ∧ q ≤ 10 := by
  have h2 : post_process_dict d = .ok r := h
  unfold post_process_dict at h2
  split at h2
  · exact absurd h2 (by simp)
  · split at h2
    · exact absurd h2 (by simp)
    · obtain ⟨f, hf, hd⟩ := ppFinal_final_score h2
      obtain ⟨q, hq, hq0, hq10⟩ := ppClamp_bounds f
      exact ⟨ppClamp f, q, hd, hq, hq0, hq10⟩

/-- The record `post_process_analysis` returns on the empty mapping: the
initial assessment defaults to an empty list, and a default category record
is fabricated for every declared name. -/
def ppEmptyOut : PyDict :=
  [ ("initial_assessment", .list []),
    ("categories", .list (categoryNames.map (fun n => ppCatRec n [] (.fin 0)))),
    ("final_score", .int 0), ("letter_grade", .str ""), ("summary", .str ""),
    ("green_flags", .list []), ("red_flags", .list []) ]

/-- Witness for C3 amended at the empty mapping. -/
theorem toser_C3_amended_witness :
    ∃ v q, dget ppEmptyOut "final_score" = some v ∧ valToQ v = some q ∧
      0 ≤ q ∧ q ≤ 10 :=
  toser_C3_amended [] ppEmptyOut rfl

/-- The score of the first normalized category record. -/
def firstCatScore (r : PyDict) : Option PyVal :=
  match dget r "categories" with
  | some (.list (c :: _)) =>
    match c with
    | .dict cd => dget cd "score"
    | _ => Option.none
  | _ => Option.none

/-- The output of `post_process_analysis` on a category score of 42. -/
def c3out : PyDict :=
  [ ("Clarity and Readability", .dict [ ("score", .int 42) ]),
    ("initial_assessment", .list []),
    ("categories", .list (ppCatRec "Clarity and Readability"
      [ ("score", .int 42) ] (.fin 42) ::
      (categoryNames.drop 1).map (fun n => ppCatRec n [] (.fin 0)))),
    ("final_score", .int 0), ("letter_grade", .str ""), ("summary", .str ""),
    ("green_flags", .list []), ("red_flags", .list []) ]

/-- C3 counterexample: a category score of 42 passes through normalization
unclamped — the claim's `min ≤ score ≤ max` fails for category scores (only
`final_score` is clamped, on line 228; the category loop of lines 200-209
never clamps). -/
theorem toser_C3_cex :
    post_process_analysis
      (.dict [ ("Clarity and Readability", .dict [ ("score", .int 42) ]) ]) =
      .ok c3out ∧
      firstCatScore c3out = some (.float (.fin 42)) ∧ ¬ ((42 : ℚ) ≤ 10) :=
  ⟨rfl, rfl, by norm_num⟩

/-! ### C8: defaults for absent fields -/

/-- C8 amended: in `parse_and_clean_json`'s restructuring every absent source
field yields its type-appropriate default — empty string for the initial
assessment, summary and letter grade, empty sequence for flags and
categories, `0.0` for the final score; `post_process_analysis`, by contrast,
defaults a missing initial assessment to an empty sequence and fabricates
default category records (see the counterexample). -/
theorem toser_C8_amended (p : PyDict)
    (h1 : dget p "Initial Assessment" = Option.none)
    (h2 : dget p "Overall Assessment" = Option.none)
    (h3 : dget p "Categories" = Option.none) :
    restructure (.dict p) = .ok defaultRestructured := by
  have e1 : pyGetAttr (.dict p) "Initial Assessment" (.str "") = .ok (.str "") := by
    simp [pyGetAttr, dgetD, h1]
  have e2 : pyGetAttr (.dict p) "Overall Assessment" (.dict []) = .ok (.dict []) := by
    simp [pyGetAttr, dgetD, h2]
  have e3 : pyGetAttr (.dict p) "Categories" (.list []) = .ok (.list []) := by
    simp [pyGetAttr, dgetD, h3]
  unfold restructure
  rw [e1, e2, e3]
  rfl

/-- Witness for C8 amended at the empty mapping. -/
theorem toser_C8_amended_witness :
    restructure (.dict []) = .ok defaultRestructured :=
  toser_C8_amended [] rfl rfl rfl

/-- C8 counterexample: `post_process_analysis` on the empty mapping sets
`initial_assessment` to an empty list, not the empty string the claim
requires of string fields. -/
theorem toser_C8_cex :
    post_process_analysis (.dict []) = .ok ppEmptyOut ∧
      dget ppEmptyOut "initial_assessment" ≠ some (.str "") := by
  refine ⟨rfl, fun h => ?_⟩
  have h2 : PyVal.list [] = PyVal.str "" := by
    have h1 : dget ppEmptyOut "initial_assessment" = some (.list []) := rfl
    rw [h1] at h
    injection h
  exact PyVal.noConfusion h2

/-! ### C9: category order, invention, excess -/

/-- The `name` field of a normalized category record. -/
def catName : PyVal → Option PyVal
  | .dict cd => dget cd "name"
  | _ => Option.none

theorem isDict_exists {v : PyVal} (h : v.isDict = true) :
    ∃ cd, v = .dict cd := by
  cases v <;> simp [PyVal.isDict] at h ⊢

/-- The names of the records `ppCats` produces are exactly the declared names
whose value is absent or mapping-shaped, in declared order. -/
theorem ppCats_names (a : PyDict) (ns : List String) (cs : List PyVal)
    (h : ppCats a ns = .ok cs) :
    cs.map catName =
      (ns.filter (fun n => (dgetD a n (.dict [])).isDict)).map
        (fun n => some (.str n)) := by
  induction ns generalizing cs with
  | nil =>
    cases h
    simp
  | cons n ns ih =>
    unfold ppCats at h
    split at h
    · rename_i cd heq
      split at h
      · exact absurd h (by simp)
      · rename_i s heqf
        split at h
        · exact absurd h (by simp)
        · rename_i rest heqr
          cases h
          have hp : (dgetD a n (.dict [])).isDict = true := by
            rw [heq]; rfl
          rw [List.filter_cons_of_pos (by simpa using hp)]
          simp only [List.map_cons]
          rw [ih rest heqr]
          rfl
    · rename_i hno
      have hp : (dgetD a n (.dict [])).isDict = false := by
        cases hv : dgetD a n (.dict []) with
        | dict cd => exact (hno cd hv).elim
        | str s => rfl
        | int m => rfl
        | float f => rfl
        | bool b => rfl
        | pynone => rfl
        | list xs => rfl
      rw [List.filter_cons_of_neg (by simp [hp])]
      exact ih cs h

/-- C9 amended: the normalized categories appear in the schema-declared
order, with a record for every declared name whose value is absent or
mapping-shaped (defaults are fabricated for missing names) and none for
anything else — non-declared categories are dropped, not preserved (see the
counterexample). -/
theorem toser_C9_amended (d : PyDict) (r : PyDict)
    (h : post_process_analysis (.dict d) = .ok r) :
    ∃ cs, dget r "categories" = some (.list cs) ∧
      cs.map catName =
        (categoryNames.filter (fun n => (dgetD d n (.dict [])).isDict)).map
          (fun n => some (.str n)) := by
  have h2 : post_process_dict d = .ok r := h
  unfold post_process_dict at h2
  split at h2
  · exact absurd h2 (by simp)
  · rename_i cs heq
    split at h2
    · exact absurd h2 (by simp)
    · rename_i quint fs lg sm gf rf heq2
      refine ⟨cs, ?_, ?_⟩
      · rw [ppFinal_preserves "categories" (by decide) (by decide) (by decide)
          (by decide) (by decide) h2]
        rw [dget_dset_ne _ _ _ _ (by decide), dget_dset_ne _ _ _ _ (by decide),
          dget_dset_ne _ _ _ _ (by decide), dget_dset_ne _ _ _ _ (by decide),
          dget_dset_ne _ _ _ _ (by decide), dget_dset_self]
      · rw [ppCats_names _ categoryNames cs heq]
        congr 1
        apply List.filter_congr
        intro n hn
        rw [dgetD_dset_ne _ _ _ _ _ (categoryNames_ne_ia n hn)]

/-- Witness for C9 amended at the empty mapping. -/
theorem toser_C9_amended_witness :
    ∃ cs, dget ppEmptyOut "categories" = some (.list cs) ∧
      cs.map catName =
        (categoryNames.filter
          (fun n => (dgetD ([] : PyDict) n (.dict [])).isDict)).map
          (fun n => some (.str n)) :=
  toser_C9_amended [] ppEmptyOut rfl

/-- The output of `post_process_analysis` on a single non-declared category. -/
def c9out : PyDict :=
  [ ("Extra Category", .dict []),
    ("initial_assessment", .list []),
    ("categories", .list (categoryNames.map (fun n => ppCatRec n [] (.fin 0)))),
    ("final_score", .int 0), ("letter_grade", .str ""), ("summary", .str ""),
    ("green_flags", .list []), ("red_flags", .list []) ]

/-- C9 counterexample: on input naming only a non-declared category, the
normalizer invents a default record for each of the seven declared names —
records are fabricated for names missing from the input — and the
non-declared `Extra Category` is dropped rather than preserved. -/
theorem toser_C9_cex :
    post_process_analysis (.dict [ ("Extra Category", .dict []) ]) = .ok c9out ∧
      ∃ cs, dget c9out "categories" = some (.list cs) ∧
        cs.map catName = categoryNames.map (fun n => some (.str n)) ∧
        cs.length = 7 :=
  ⟨rfl, categoryNames.map (fun n => ppCatRec n [] (.fin 0)), rfl, rfl, rfl⟩

/-! ### C6: the repair chain is total but not idempotent -/

theorem head?_append {l r : List Char} {c : Char} (h : l.head? = some c) :
    (l ++ r).head? = some c := by
  cases l with
  | nil => simp at h
  | cons x xs => simpa using h

theorem head_shape {l : List Char} {c : Char} (h : l.head? = some c) :
    ∃ r, l = c :: r := by
  cases l with
  | nil => simp at h
  | cons x xs =>
    refine ⟨xs, ?_⟩
    simp only [List.head?] at h
    injection h with h1
    rw [h1]

theorem take_head {l : List Char} {c : Char} (n : ℕ) (h : l.head? = some c) :
    (l.take (n + 1)).head? = some c := by
  obtain ⟨r, rfl⟩ := head_shape h
  rfl

theorem wrapStart_head (s : List Char) : (wrapStart s).head? = some '\x7b' := by
  unfold wrapStart
  split
  · assumption
  · rfl

theorem wrapEnd_head {s : List Char} (h : s.head? = some '\x7b') :
    (wrapEnd s).head? = some '\x7b' := by
  unfold wrapEnd
  split
  · exact h
  · exact head?_append h

theorem subEscQuote_head {l : List Char} (prev : Option Char)
    (h : l.head? = some '\x7b') :
    (subEscQuote prev l).head? = some '\x7b' := by
  obtain ⟨r, rfl⟩ := head_shape h
  cases r with
  | nil => rfl
  | cons x xs => rfl

theorem subSingleQuote_head {l : List Char} (prev : Option Char)
    (h : l.head? = some '\x7b') :
    (subSingleQuote prev l).head? = some '\x7b' := by
  obtain ⟨r, rfl⟩ := head_shape h
  rfl

theorem subBackslashN_head {l : List Char} (prev : Option Char)
    (h : l.head? = some '\x7b') :
    (subBackslashN prev l).head? = some '\x7b' := by
  obtain ⟨r, rfl⟩ := head_shape h
  cases r with
  | nil => rfl
  | cons x xs => rfl

theorem removeCtrl_head {l : List Char} (h : l.head? = some '\x7b') :
    (removeCtrl l).head? = some '\x7b' := by
  obtain ⟨r, rfl⟩ := head_shape h
  rfl

theorem subQuoteKeys_head {r : List Char} (n : ℕ) :
    (subQuoteKeys (n + 1) ('\x7b' :: r)).head? = some '\x7b' := by
  unfold subQuoteKeys
  dsimp only
  rw [if_pos (Or.inl rfl)]
  cases hk : keyMatch r with
  | some x =>
    obtain ⟨ws, id, r3⟩ := x
    rfl
  | none => rfl

theorem subQuoteKeysF_head {l : List Char} (h : l.head? = some '\x7b') :
    (subQuoteKeysF l).head? = some '\x7b' := by
  obtain ⟨r, rfl⟩ := head_shape h
  exact subQuoteKeys_head (r.length + 1)

theorem subTrailCommaF_head {l : List Char} (h : l.head? = some '\x7b') :
    (subTrailCommaF l).head? = some '\x7b' := by
  obtain ⟨r, rfl⟩ := head_shape h
  rfl

theorem subNestedF_head {l : List Char} (h : l.head? = some '\x7b') :
    (subNestedF l).head? = some '\x7b' := by
  obtain ⟨r, rfl⟩ := head_shape h
  rfl

theorem appendClosers_head {cut : List Char} {c : Char}
    (h : cut.head? = some c) : (appendClosers cut).head? = some c := by
  unfold appendClosers
  exact head?_append (head?_append h)

theorem fixTruncated_head {l : List Char} (h : l.head? = some '\x7b') :
    (fixTruncated l).head? = some '\x7b' := by
  unfold fixTruncated
  split
  · exact h
  · split
    · split
      · exact appendClosers_head (take_head _ h)
      · exact h
    · exact h

/-- Every output of the repair chain begins with an opening brace. -/
theorem clean_json_response_head (t : List Char) :
    (clean_json_response t).head? = some '\x7b' := by
  unfold clean_json_response
  exact fixTruncated_head (subNestedF_head (subTrailCommaF_head
    (subQuoteKeysF_head (removeCtrl_head (subBackslashN_head _
      (subSingleQuote_head _ (subEscQuote_head _
        (wrapEnd_head (wrapStart_head (pyStrip t))))))))))

/-- A truncated text on which a second application of the chain appends a
further closing brace. -/
def c6probe : List Char := String.toList "\x7b\"b\":[2"

/-- C6 amended: the repair chain is total — every input yields an output, one
that always begins with `{` — but it is not idempotent: when the first
application's output ends with `]` (its closers are appended braces-first),
a second application appends another closing brace. -/
theorem toser_C6_amended :
    (∀ t : List Char, (clean_json_response t).head? = some '\x7b') ∧
      clean_json_response (clean_json_response c6probe) ≠
        clean_json_response c6probe :=
  ⟨clean_json_response_head, by decide⟩

/-- A second truncated text for the counterexample. -/
def c6cex : List Char := String.toList "\x7b\"a\":[1"

/-- C6 counterexample: the repair chain is not idempotent — on `{"a":[1` one
application yields `{"a":[1}]` and a second yields `{"a":[1}]}`. -/
theorem toser_C6_cex :
    clean_json_response (clean_json_response c6cex) ≠ clean_json_response c6cex := by
  decide

end Toser
